import Mathlib

/-!
Shallow embedding of `src/composables/useFileSystem.ts` (image-processor).

JavaScript strings are modelled as Lean `String`, timestamps
(`Date.getTime()` / `file.lastModified`) as `Int`, and the browser /
library effects (EXIF parsing, file-system handles) as explicit oracle
parameters describing each call's outcome.  `Array.prototype.sort` with
the comparator `a.dateTime - b.dateTime` is modelled by the stable
`List.mergeSort` (ECMAScript requires `sort` to be stable).
-/

namespace ImageProcessor

/-- A browser `File`: its `name`, declared MIME `type`, and `lastModified`. -/
structure JSFile where
  name : String
  type : String
  lastModified : Int
deriving Repr, DecidableEq

/-- Whether `pat` begins `cs`, as plain character recursion (JS `startsWith`). -/
def leadMatch : List Char → List Char → Bool
  | [], _ => true
  | _ :: _, [] => false
  | p :: ps, c :: cs => p == c && leadMatch ps cs

/-- JS `s.includes(pat)` : some position of `s` starts with `pat`. -/
def strIncludes (s pat : String) : Bool :=
  (List.range (s.data.length + 1)).any fun i => leadMatch pat.data (s.data.drop i)

/-- JS `s.split('.')` at the character level (split on a literal dot;
always at least one — possibly empty — segment). -/
def splitChars : List Char → List (List Char)
  | [] => [[]]
  | c :: cs =>
    let r := splitChars cs
    if c = '.' then [] :: r
    else
      match r with
      | [] => [[c]]
      | s :: rest => (c :: s) :: rest

/-- JS `name.split('.')` on strings. -/
def splitOnDot (name : String) : List String :=
  (splitChars name.data).map String.mk

/-- JS `s.toLowerCase()` (ASCII fragment, which is all the classifier's
fixed extension sets need). -/
def toLowerStr (s : String) : String :=
  String.mk (s.data.map Char.toLower)

/-- JS `name.split('.').pop()?.toLowerCase()` (split on a literal dot never
yields an empty array, so `pop` only misses on the impossible empty list). -/
def popExtLower (name : String) : Option String :=
  ((splitOnDot name).getLast?).map toLowerStr

/-- The `SUPPORTED_FORMATS` allow-list from the source (a JS `Set` of MIME types). -/
def SUPPORTED_FORMATS : List String :=
  ["image/jpeg", "image/png", "image/webp",
   "image/arw", "image/x-sony-arw",
   "image/cr2", "image/x-canon-cr2",
   "image/nef", "image/x-nikon-nef",
   "image/raf", "image/x-fuji-raf",
   "image/raw", "image/x-raw"]

/-- The `RAW_EXTENSIONS` set from the source. -/
def RAW_EXTENSIONS : List String :=
  ["arw", "cr2", "nef", "raf", "raw", "rw2", "orf", "dng"]

/-- Result record of `isImageFile`. -/
structure FileClass where
  isSupported : Bool
  isRaw : Bool
deriving Repr, DecidableEq

/-- The classifier `isImageFile` from the source: MIME allow-list first, then
extension fallback (`split('.').pop()?.toLowerCase()`, truthiness check). -/
def isImageFile (file : JSFile) : FileClass :=
  if SUPPORTED_FORMATS.contains file.type then
    { isSupported := true
      isRaw := strIncludes file.type "raw" || strIncludes file.type "arw" ||
               strIncludes file.type "cr2" || strIncludes file.type "nef" ||
               strIncludes file.type "raf" }
  else
    match popExtLower file.name with
    | some extension =>
      if extension ≠ "" then
        { isSupported := RAW_EXTENSIONS.contains extension
          isRaw := RAW_EXTENSIONS.contains extension }
      else { isSupported := false, isRaw := false }
    | none => { isSupported := false, isRaw := false }

/-- The two EXIF fields `getImageDateTime` requests from `exifr.parse`. -/
structure ExifDates where
  DateTimeOriginal : Option Int
  CreateDate : Option Int
deriving Repr, DecidableEq

/-- Outcome of the `exifr.parse` call: it can throw (`.error`), resolve to
`undefined` (`.ok none`), or resolve to a record of the two fields. -/
abbrev ExifResult : Type := Except Unit (Option ExifDates)

/-- The extractor `getImageDateTime` from the source: `DateTimeOriginal`, else
`CreateDate`, else `file.lastModified`; a thrown parse error also falls
back to `file.lastModified`.  Total by construction. -/
def getImageDateTime (file : JSFile) (parseOutcome : ExifResult) : Int :=
  match parseOutcome with
  | .error _ => file.lastModified
  | .ok exifData =>
    match exifData with
    | none => file.lastModified
    | some d =>
      match d.DateTimeOriginal with
      | some t => t
      | none =>
        match d.CreateDate with
        | some t => t
        | none => file.lastModified

/-- The record `ImageWithMetadata` from the source (the `file` handle is the `JSFile`,
`thumbnail` an already-encoded data URL). -/
structure ImageWithMetadata where
  file : JSFile
  dateTime : Int
  name : String
  newName : Option String := none
  thumbnail : Option String := none
  isRaw : Bool := false
deriving Repr, DecidableEq

/-- One CSV row as produced by Papa Parse with `header: true`: an
association of column names to string cell values; an absent key models
a JS `undefined` property. -/
abbrev Row : Type := List (String × String)

/-- JS property read `csvRow[col]`. -/
def rowGet (row : Row) (col : String) : Option String :=
  List.lookup col row

/-- The extension computation of `updatePreviewNames`:
`img.file.name.split('.').pop()?.toLowerCase() || 'jpg'`.  Note that for
a name without a dot, `split('.').pop()` is the whole name, so the `jpg`
default only fires when the last segment is empty. -/
def jsExtension (name : String) : String :=
  match popExtLower name with
  | some e => if e = "" then "jpg" else e
  | none => "jpg"

/-- The body of the indexed `images.map` in `updatePreviewNames`:
`csvData[index]`, the truthiness test on the cell, and
`newName = cell ++ '.' ++ extension` with the `|| 'jpg'` default. -/
def previewName (csvData : List Row) (selectedColumn : String) (index : Nat)
    (img : ImageWithMetadata) : ImageWithMetadata :=
  match csvData[index]? with
  | none => { img with newName := none }
  | some csvRow =>
    match rowGet csvRow selectedColumn with
    | none => { img with newName := none }
    | some v =>
      if v = "" then { img with newName := none }
      else { img with newName := some (v ++ "." ++ jsExtension img.file.name) }

/-- The indexed traversal of `images.value.map((img, index) => ...)`. -/
def updateLoop (csvData : List Row) (selectedColumn : String) :
    Nat → List ImageWithMetadata → List ImageWithMetadata
  | _, [] => []
  | i, img :: rest =>
    previewName csvData selectedColumn i img ::
      updateLoop csvData selectedColumn (i + 1) rest

/-- The projection `updatePreviewNames` from the source: clear every `newName` when no
column is selected (`selectedColumn` is the empty string, JS-falsy) or the
CSV is empty; otherwise project row `index` onto each image. -/
def updatePreviewNames (selectedColumn : String) (csvData : List Row)
    (images : List ImageWithMetadata) : List ImageWithMetadata :=
  if selectedColumn = "" || csvData.isEmpty then
    images.map fun img => { img with newName := none }
  else
    updateLoop csvData selectedColumn 0 images

/-- The bounded-box resize block of `createImageThumbnail` (lines that
rescale `img.width` / `img.height` against `maxDimension = 400`), over ℚ
as the idealized semantics of JS number arithmetic.  Returns
`(width, height)`. -/
def resizeDims (w h : ℚ) : ℚ × ℚ :=
  let maxDimension : ℚ := 400
  if w > h then
    if w > maxDimension then (maxDimension, h * (maxDimension / w)) else (w, h)
  else
    if h > maxDimension then (w * (maxDimension / h), maxDimension) else (w, h)

/-- Kind tag of a `FileSystemHandle` (`fileHandle.kind`). -/
inductive EntryKind where
  | file
  | directory
deriving Repr, DecidableEq

/-- One entry yielded by `handle.entries()` in `selectFolder`, together
with the oracle outcomes of the per-file effect calls: the EXIF parse
outcome consumed by `getImageDateTime` and the data URL produced by
`createImageThumbnail`. -/
structure DirEntry where
  entryName : String
  kind : EntryKind
  file : JSFile
  exifOutcome : ExifResult
  thumbOutcome : String

/-- The enumeration loop of `selectFolder`: keep files whose
classification is supported, building each `ImageWithMetadata` from the
metadata / thumbnail results. -/
def enumerateImages (entries : List DirEntry) : List ImageWithMetadata :=
  entries.filterMap fun e =>
    match e.kind with
    | .directory => none
    | .file =>
      let c := isImageFile e.file
      if c.isSupported then
        some { file := e.file
               dateTime := getImageDateTime e.file e.exifOutcome
               name := e.file.name
               thumbnail := some e.thumbOutcome
               isRaw := c.isRaw }
      else none

/-- The comparator `(a, b) => a.dateTime.getTime() - b.dateTime.getTime()`
as a Boolean `le`. -/
def byDateTime (a b : ImageWithMetadata) : Bool :=
  a.dateTime ≤ b.dateTime

/-- The asset production of `selectFolder`: enumerate, then
`imageFiles.sort((a, b) => a.dateTime - b.dateTime)` — a stable ascending
sort, modelled by `List.mergeSort`. -/
def selectFolderImages (entries : List DirEntry) : List ImageWithMetadata :=
  (enumerateImages entries).mergeSort byDateTime

/-- Whether `rawCount > 0` after the enumeration loop (`hasRawFiles`). -/
def hasRawFilesOf (entries : List DirEntry) : Bool :=
  (enumerateImages entries).any (·.isRaw)

/-- The mutable accounting of `renameImages`' loop: the two counters,
the destination entries created so far (`getFileHandle(name, {create:
true})` is create-if-absent, so entries are deduplicated by name), and
`currentFile`. -/
structure ExportState where
  successCount : Nat := 0
  errorCount : Nat := 0
  destEntries : List String := []
  currentFile : String := ""
deriving Repr, DecidableEq

/-- Create-if-absent insertion of a destination entry name. -/
def addEntry (entries : List String) (n : String) : List String :=
  if entries.contains n then entries else entries ++ [n]

/-- Outcome oracle for one iteration's I/O: `none` means every step
succeeded; `some k` means step `k` threw, where step 0 is
`outputDirHandle.getFileHandle(newName, {create:true})` (entry not yet
created when it throws), and steps 1..4 are the source
`getFileHandle`/`getFile`, `createWritable`, `write`, `close` (entry
already created). -/
abbrev ItemOutcome : Type := Option Nat

/-- One iteration of the `for (const image of images.value)` loop in
`renameImages`.  `outSet` is the truthiness of `outputDirHandle.value` at
this iteration (`if (outputDirHandle.value)`); JS `!image.newName` is
also true for the empty string. -/
def processOne (outSet : Bool) (outcome : ItemOutcome)
    (img : ImageWithMetadata) (st : ExportState) : ExportState :=
  match img.newName with
  | none => { st with errorCount := st.errorCount + 1 }
  | some newName =>
    if newName = "" then { st with errorCount := st.errorCount + 1 }
    else if outSet then
      let st := { st with currentFile := img.file.name }
      match outcome with
      | some 0 => { st with errorCount := st.errorCount + 1 }
      | some (_ + 1) =>
        { st with errorCount := st.errorCount + 1
                  destEntries := addEntry st.destEntries newName }
      | none =>
        { st with successCount := st.successCount + 1
                  destEntries := addEntry st.destEntries newName }
    else st

/-- The whole per-asset loop; `outSetDuring i` is the truthiness of the
reactive `outputDirHandle.value` ref at iteration `i`, `outcomes i` the
I/O outcome of iteration `i`.  Every exception is caught inside the loop
body, so the loop always continues to the next asset. -/
def exportLoop (outSetDuring : Nat → Bool) (outcomes : Nat → ItemOutcome) :
    Nat → List ImageWithMetadata → ExportState → ExportState
  | _, [], st => st
  | i, img :: rest, st =>
    exportLoop outSetDuring outcomes (i + 1) rest
      (processOne (outSetDuring i) (outcomes i) img st)

/-- The final status string `Copied and renamed S images. E errors.`. -/
def finalStatus (st : ExportState) : String :=
  "Copied and renamed " ++ toString st.successCount ++ " images. " ++
    toString st.errorCount ++ " errors."

/-- Result of a `renameImages` invocation. -/
inductive RenameResult where
  | preconditionError (msg : String)
  | outputSelectionFailed
  | done (st : ExportState) (status : String)
deriving Repr, DecidableEq

/-- The export engine `renameImages` from the source.  `dirSet` is the truthiness of
`dirHandle.value`; `outSet0` that of `outputDirHandle.value` on entry;
`selectOutputOk` the success of the `selectOutputFolder()` interaction
attempted when `outSet0` is false (on failure the function returns with
no batch processed). -/
def renameImages (dirSet : Bool) (csvData : List Row)
    (images : List ImageWithMetadata) (selectedColumn : String)
    (outSet0 : Bool) (selectOutputOk : Bool)
    (outSetDuring : Nat → Bool) (outcomes : Nat → ItemOutcome) :
    RenameResult :=
  if !dirSet || csvData.isEmpty || images.isEmpty || selectedColumn = "" then
    .preconditionError "Please select both folder and CSV first"
  else if !outSet0 && !selectOutputOk then
    .outputSelectionFailed
  else
    let st := exportLoop outSetDuring outcomes 0 images {}
    .done st (finalStatus st)

/-- A sample asset for concrete export scenarios. -/
def sampleImage (nm : String) (newNm : Option String) : ImageWithMetadata :=
  { file := ⟨nm, "image/jpeg", 0⟩, dateTime := 0, name := nm, newName := newNm }

/-- Five sample assets: asset #3 (1-based) has no `newName`. -/
def sampleImages : List ImageWithMetadata :=
  [sampleImage "1.jpg" (some "a.jpg"), sampleImage "2.jpg" (some "b.jpg"),
   sampleImage "3.jpg" none, sampleImage "4.jpg" (some "d.jpg"),
   sampleImage "5.jpg" (some "e.jpg")]

/-- A non-empty sample dataset. -/
def sampleCsv : List Row := [[("c", "a")]]

/-! ### Theorems -/

/-- C7: Format Classifier decision table.  With an absent or unrecognized
MIME type and a (case-insensitively) `cr2` extension the file classifies
as supported RAW — the extension fallback is authoritative; MIME
`image/png` classifies as supported non-RAW for any filename; an
unrecognized MIME with extension `txt` classifies as unsupported
non-RAW. -/
theorem format_classifier_decision_table (f : JSFile) :
    (SUPPORTED_FORMATS.contains f.type = false →
      popExtLower f.name = some "cr2" →
      isImageFile f = ⟨true, true⟩) ∧
    (f.type = "image/png" → isImageFile f = ⟨true, false⟩) ∧
    (SUPPORTED_FORMATS.contains f.type = false →
      popExtLower f.name = some "txt" →
      isImageFile f = ⟨false, false⟩) := by
  have hfallback : ∀ g : JSFile, SUPPORTED_FORMATS.contains g.type = false →
      ∀ e : String, popExtLower g.name = some e → e ≠ "" →
      isImageFile g =
        ⟨RAW_EXTENSIONS.contains e, RAW_EXTENSIONS.contains e⟩ := by
    intro g hmime e hext hne
    unfold isImageFile
    rw [hmime, hext]
    simp [hne]
  refine ⟨fun hmime hext => ?_, fun hpng => ?_, fun hmime hext => ?_⟩
  · rw [hfallback f hmime "cr2" hext (by decide)]
    decide
  · simp [isImageFile, hpng, SUPPORTED_FORMATS]
    decide
  · rw [hfallback f hmime "txt" hext (by decide)]
    decide

/-- Witness for C7 at concrete files: a `CR2` file with an empty MIME
type, a PNG, and a text file. -/
theorem format_classifier_decision_table_witness :
    isImageFile ⟨"IMG_1234.CR2", "", 0⟩ = ⟨true, true⟩ ∧
    isImageFile ⟨"shot.png", "image/png", 0⟩ = ⟨true, false⟩ ∧
    isImageFile ⟨"notes.txt", "text/plain", 0⟩ = ⟨false, false⟩ :=
  ⟨(format_classifier_decision_table ⟨"IMG_1234.CR2", "", 0⟩).1
      (by decide) (by decide),
   (format_classifier_decision_table ⟨"shot.png", "image/png", 0⟩).2.1 rfl,
   (format_classifier_decision_table ⟨"notes.txt", "text/plain", 0⟩).2.2
      (by decide) (by decide)⟩

/-- C6: `getImageDateTime` is total by construction (it returns an `Int`
for every parse outcome, including a thrown error), and follows the
fallback chain: `DateTimeOriginal`, else `CreateDate`, else the file's
`lastModified`; a throwing parse also yields `lastModified` exactly. -/
theorem metadata_fallback_chain (f : JSFile) (d : ExifDates) (t : Int) :
    getImageDateTime f (Except.error ()) = f.lastModified ∧
    getImageDateTime f (Except.ok none) = f.lastModified ∧
    (d.DateTimeOriginal = some t →
      getImageDateTime f (Except.ok (some d)) = t) ∧
    (d.DateTimeOriginal = none → d.CreateDate = some t →
      getImageDateTime f (Except.ok (some d)) = t) ∧
    (d.DateTimeOriginal = none → d.CreateDate = none →
      getImageDateTime f (Except.ok (some d)) = f.lastModified) := by
  refine ⟨rfl, rfl, fun h1 => ?_, fun h1 h2 => ?_, fun h1 h2 => ?_⟩ <;>
    simp [getImageDateTime, h1]
  · rw [h2]
  · rw [h2]

/-- Witness for C6: each link of the fallback chain at concrete data. -/
theorem metadata_fallback_chain_witness :
    getImageDateTime ⟨"a.jpg", "image/jpeg", 55⟩
        (Except.ok (some ⟨some 10, some 20⟩)) = 10 ∧
    getImageDateTime ⟨"a.jpg", "image/jpeg", 55⟩
        (Except.ok (some ⟨none, some 20⟩)) = 20 ∧
    getImageDateTime ⟨"a.jpg", "image/jpeg", 55⟩
        (Except.ok (some ⟨none, none⟩)) = 55 :=
  ⟨(metadata_fallback_chain ⟨"a.jpg", "image/jpeg", 55⟩
      ⟨some 10, some 20⟩ 10).2.2.1 rfl,
   (metadata_fallback_chain ⟨"a.jpg", "image/jpeg", 55⟩
      ⟨none, some 20⟩ 20).2.2.2.1 rfl rfl,
   (metadata_fallback_chain ⟨"a.jpg", "image/jpeg", 55⟩
      ⟨none, none⟩ 0).2.2.2.2 rfl rfl⟩

lemma updateLoop_getElem? (csvData : List Row) (col : String)
    (imgs : List ImageWithMetadata) :
    ∀ (n i : Nat), (updateLoop csvData col n imgs)[i]? =
      imgs[i]?.map (previewName csvData col (n + i)) := by
  induction imgs with
  | nil => intro n i; simp [updateLoop]
  | cons img rest ih =>
    intro n i
    cases i with
    | zero => simp [updateLoop]
    | succ j =>
      have e : n + (j + 1) = (n + 1) + j := by omega
      simp only [updateLoop, List.getElem?_cons_succ, e, ih (n + 1) j]

/-- C1: Name Projection positional alignment and clearing.  With no
selected column or an empty dataset every asset's `newName` is cleared;
otherwise the asset at ordinal index `i` of the (already sorted) asset
list is matched to dataset row `i` purely by position: a missing row or
an absent/empty cell clears `newName`, and a non-empty cell `v` yields
`newName = v ++ "." ++ extension`. -/
theorem name_projection_alignment
    (selectedColumn : String) (csvData : List Row)
    (images : List ImageWithMetadata) (i : Nat) (img : ImageWithMetadata)
    (hi : images[i]? = some img) :
    ((selectedColumn = "" ∨ csvData = []) →
      (updatePreviewNames selectedColumn csvData images)[i]? =
        some { img with newName := none }) ∧
    (selectedColumn ≠ "" → csvData ≠ [] →
      (csvData[i]? = none →
        (updatePreviewNames selectedColumn csvData images)[i]? =
          some { img with newName := none }) ∧
      (∀ row : Row, csvData[i]? = some row →
        ((rowGet row selectedColumn = none ∨
            rowGet row selectedColumn = some "") →
          (updatePreviewNames selectedColumn csvData images)[i]? =
            some { img with newName := none }) ∧
        (∀ v : String, rowGet row selectedColumn = some v → v ≠ "" →
          (updatePreviewNames selectedColumn csvData images)[i]? =
            some { img with
                   newName := some (v ++ "." ++ jsExtension img.file.name) }))) := by
  constructor
  · intro h
    have hcond : (decide (selectedColumn = "") || csvData.isEmpty) = true := by
      rcases h with h | h <;> simp [h]
    unfold updatePreviewNames
    rw [if_pos hcond]
    simp [List.getElem?_map, hi]
  · intro hcol hcsv
    have hcond : (decide (selectedColumn = "") || csvData.isEmpty) = false := by
      simp [hcol, hcsv]
    have hmain : (updatePreviewNames selectedColumn csvData images)[i]? =
        some (previewName csvData selectedColumn i img) := by
      unfold updatePreviewNames
      rw [if_neg (by simp [hcond]), updateLoop_getElem?, hi]
      simp
    refine ⟨fun hrow => ?_, fun row hrow => ⟨fun hcell => ?_, fun v hcell hv => ?_⟩⟩
    · rw [hmain]
      simp [previewName, hrow]
    · rw [hmain]
      rcases hcell with hcell | hcell <;> simp [previewName, hrow, hcell]
    · rw [hmain]
      simp [previewName, hrow, hcell, hv]

/-- Witness for C1: three images against a three-row dataset; index 1
receives row 1's value positionally, and with no selected column the
`newName` is cleared. -/
theorem name_projection_alignment_witness :
    (updatePreviewNames "c"
        [[("c", "r0")], [("c", "r1")], [("c", "r2")]]
        [{ file := ⟨"a.jpg", "image/jpeg", 0⟩, dateTime := 0, name := "a.jpg" },
         { file := ⟨"b.jpg", "image/jpeg", 0⟩, dateTime := 1, name := "b.jpg" },
         { file := ⟨"c.jpg", "image/jpeg", 0⟩, dateTime := 2, name := "c.jpg" }])[1]? =
      some { file := ⟨"b.jpg", "image/jpeg", 0⟩, dateTime := 1,
             name := "b.jpg", newName := some ("r1" ++ "." ++ jsExtension "b.jpg") } ∧
    (updatePreviewNames ""
        [[("c", "r0")], [("c", "r1")], [("c", "r2")]]
        [{ file := ⟨"a.jpg", "image/jpeg", 0⟩, dateTime := 0, name := "a.jpg" }])[0]? =
      some { file := ⟨"a.jpg", "image/jpeg", 0⟩, dateTime := 0,
             name := "a.jpg", newName := none } :=
  ⟨((name_projection_alignment "c"
      [[("c", "r0")], [("c", "r1")], [("c", "r2")]]
      [{ file := ⟨"a.jpg", "image/jpeg", 0⟩, dateTime := 0, name := "a.jpg" },
       { file := ⟨"b.jpg", "image/jpeg", 0⟩, dateTime := 1, name := "b.jpg" },
       { file := ⟨"c.jpg", "image/jpeg", 0⟩, dateTime := 2, name := "c.jpg" }] 1
      { file := ⟨"b.jpg", "image/jpeg", 0⟩, dateTime := 1, name := "b.jpg" }
      (by decide)).2 (by decide) (by decide)).2 [("c", "r1")] (by decide)
        |>.2 "r1" (by decide) (by decide),
   (name_projection_alignment ""
      [[("c", "r0")], [("c", "r1")], [("c", "r2")]]
      [{ file := ⟨"a.jpg", "image/jpeg", 0⟩, dateTime := 0, name := "a.jpg" }] 0
      { file := ⟨"a.jpg", "image/jpeg", 0⟩, dateTime := 0, name := "a.jpg" }
      (by decide)).1 (Or.inl rfl)⟩

lemma previewName_previewName (csv : List Row) (col : String) (i : Nat)
    (img : ImageWithMetadata) :
    previewName csv col i (previewName csv col i img) =
      previewName csv col i img := by
  unfold previewName
  cases h : csv[i]? with
  | none => simp
  | some row =>
    cases hr : rowGet row col with
    | none => simp [hr]
    | some v =>
      by_cases hv : v = "" <;> simp [hr, hv]

lemma updateLoop_idem (csv : List Row) (col : String)
    (imgs : List ImageWithMetadata) :
    ∀ n, updateLoop csv col n (updateLoop csv col n imgs) =
      updateLoop csv col n imgs := by
  induction imgs with
  | nil => intro n; rfl
  | cons img rest ih =>
    intro n
    rw [updateLoop, updateLoop, previewName_previewName, ih (n + 1)]

/-- C8: Name Projection idempotence — running `updatePreviewNames` twice
with the same column and dataset yields the same asset list (hence the
same `newName` for every asset) as running it once. -/
theorem name_projection_idempotent (selectedColumn : String)
    (csvData : List Row) (images : List ImageWithMetadata) :
    updatePreviewNames selectedColumn csvData
        (updatePreviewNames selectedColumn csvData images) =
      updatePreviewNames selectedColumn csvData images := by
  unfold updatePreviewNames
  by_cases h : (decide (selectedColumn = "") || csvData.isEmpty) = true
  · rw [if_pos h, if_pos h, List.map_map]
    congr 1
  · rw [if_neg h, if_neg h, updateLoop_idem]

/-- C3 counterexample: the claim says `jpg` is used whenever the
original filename has no extension, but for the dot-free filename
`photo` the code appends the whole lower-cased filename
(`split('.').pop()` returns the entire string), producing
`Alpha.photo`, not the claimed `Alpha.jpg`. -/
theorem extension_preservation_counterexample :
    (updatePreviewNames "c" [[("c", "Alpha")]]
        [{ file := ⟨"photo", "image/jpeg", 0⟩, dateTime := 0,
           name := "photo" }]).map ImageWithMetadata.newName =
      [some "Alpha.photo"] ∧
    some "Alpha.photo" ≠ some "Alpha.jpg" := by
  constructor
  · decide
  · decide

lemma previewName_cases (csv : List Row) (col : String) (i : Nat)
    (img : ImageWithMetadata) :
    previewName csv col i img = { img with newName := none } ∨
    ∃ v : String, v ≠ "" ∧ previewName csv col i img =
      { img with newName := some (v ++ "." ++ jsExtension img.file.name) } := by
  cases h : csv[i]? with
  | none => exact Or.inl (by simp [previewName, h])
  | some row =>
    cases hr : rowGet row col with
    | none => exact Or.inl (by simp [previewName, h, hr])
    | some v =>
      by_cases hv : v = ""
      · exact Or.inl (by simp [previewName, h, hr, hv])
      · exact Or.inr ⟨v, hv, by simp [previewName, h, hr, hv]⟩

lemma updateLoop_newName (csv : List Row) (col : String)
    (imgs : List ImageWithMetadata) :
    ∀ (n : Nat) (img' : ImageWithMetadata),
      img' ∈ updateLoop csv col n imgs → ∀ s, img'.newName = some s →
      ∃ v, s = v ++ "." ++ jsExtension img'.file.name := by
  induction imgs with
  | nil => intro n img' h; simp [updateLoop] at h
  | cons img rest ih =>
    intro n img' h s hs
    rw [updateLoop] at h
    rcases List.mem_cons.mp h with he | ht
    · rcases previewName_cases csv col n img with hp | ⟨v, -, hp⟩
      · rw [hp] at he
        subst he
        simp at hs
      · rw [hp] at he
        subst he
        simp at hs
        exact ⟨v, hs.symm⟩
    · exact ih (n + 1) img' ht s hs

/-- C3 amended: for every asset that receives a `newName`, the name is
the aligned cell value, a dot, and the last dot-separated segment of the
original filename lower-cased — the whole lower-cased filename when the
name has no dot — with `jpg` substituted only when that segment is empty;
in particular `IMG_0007.JPG` with cell value `Alpha` yields exactly
`Alpha.jpg`. -/
theorem extension_preservation_amended :
    (∀ (selectedColumn : String) (csvData : List Row)
       (images : List ImageWithMetadata) (img' : ImageWithMetadata),
      img' ∈ updatePreviewNames selectedColumn csvData images →
      ∀ s, img'.newName = some s →
      ∃ v, s = v ++ "." ++ jsExtension img'.file.name) ∧
    jsExtension "IMG_0007.JPG" = "jpg" ∧
    (updatePreviewNames "c" [[("c", "Alpha")]]
        [{ file := ⟨"IMG_0007.JPG", "image/jpeg", 0⟩, dateTime := 0,
           name := "IMG_0007.JPG" }]).map ImageWithMetadata.newName =
      [some "Alpha.jpg"] := by
  refine ⟨?_, by decide, by decide⟩
  intro selectedColumn csvData images img' h s hs
  unfold updatePreviewNames at h
  by_cases hcond : (decide (selectedColumn = "") || csvData.isEmpty) = true
  · rw [if_pos hcond] at h
    rcases List.mem_map.mp h with ⟨img, -, he⟩
    subst he
    simp at hs
  · rw [if_neg hcond] at h
    exact updateLoop_newName csvData selectedColumn images 0 img' h s hs

/-- Witness for C3 amended, at the `IMG_0007.JPG` / `Alpha` input. -/
theorem extension_preservation_amended_witness :
    ∃ v, "Alpha.jpg" = v ++ "." ++
      jsExtension ({ file := ⟨"IMG_0007.JPG", "image/jpeg", 0⟩,
                     dateTime := 0, name := "IMG_0007.JPG",
                     newName := some "Alpha.jpg"
                     : ImageWithMetadata }).file.name :=
  extension_preservation_amended.1 "c" [[("c", "Alpha")]]
    [{ file := ⟨"IMG_0007.JPG", "image/jpeg", 0⟩, dateTime := 0,
       name := "IMG_0007.JPG" }]
    { file := ⟨"IMG_0007.JPG", "image/jpeg", 0⟩, dateTime := 0,
      name := "IMG_0007.JPG", newName := some "Alpha.jpg" }
    (by decide) "Alpha.jpg" rfl

/-- C9: the bounded-box resize of `createImageThumbnail`, over exact
rational arithmetic: the longer edge of the result never exceeds the
fixed maximum `400`; aspect ratio is preserved exactly
(`w' * h = w * h'`); neither axis is ever scaled up; an image whose
longer edge is already within `400` is unchanged; and the clamped axis
is the width when `w > h`, the height when `w ≤ h`. -/
lemma resizeDims_wide (w h : ℚ) (h1 : h < w) (h2 : 400 < w) :
    resizeDims w h = (400, h * (400 / w)) := by
  simp only [resizeDims]
  rw [if_pos h1, if_pos h2]

lemma resizeDims_wide_small (w h : ℚ) (h1 : h < w) (h2 : w ≤ 400) :
    resizeDims w h = (w, h) := by
  simp only [resizeDims]
  rw [if_pos h1, if_neg (not_lt.mpr h2)]

lemma resizeDims_tall (w h : ℚ) (h1 : w ≤ h) (h2 : 400 < h) :
    resizeDims w h = (w * (400 / h), 400) := by
  simp only [resizeDims]
  rw [if_neg (not_lt.mpr h1), if_pos h2]

lemma resizeDims_tall_small (w h : ℚ) (h1 : w ≤ h) (h2 : h ≤ 400) :
    resizeDims w h = (w, h) := by
  simp only [resizeDims]
  rw [if_neg (not_lt.mpr h1), if_neg (not_lt.mpr h2)]

theorem thumbnail_bounded_box (w h : ℚ) (hw : 0 < w) (hh : 0 < h) :
    max (resizeDims w h).1 (resizeDims w h).2 ≤ 400 ∧
    (resizeDims w h).1 * h = w * (resizeDims w h).2 ∧
    (resizeDims w h).1 ≤ w ∧ (resizeDims w h).2 ≤ h ∧
    (max w h ≤ 400 → resizeDims w h = (w, h)) ∧
    (h < w → 400 < w → (resizeDims w h).1 = 400) ∧
    (w ≤ h → 400 < h → (resizeDims w h).2 = 400) := by
  have hw0 : w ≠ 0 := ne_of_gt hw
  have hh0 : h ≠ 0 := ne_of_gt hh
  rcases lt_or_le h w with h1 | h1
  · rcases lt_or_le (400 : ℚ) w with h2 | h2
    · -- w > h and w > 400 : result (400, h * (400 / w))
      rw [resizeDims_wide w h h1 h2]
      have e : w * (400 / w) = 400 := by field_simp
      have hscaled : h * (400 / w) ≤ 400 := by
        calc h * (400 / w) ≤ w * (400 / w) :=
              mul_le_mul_of_nonneg_right (le_of_lt h1) (by positivity)
          _ = 400 := e
      refine ⟨max_le (le_refl 400) hscaled, ?_, le_of_lt h2, ?_, ?_,
        fun _ _ => rfl, fun hle _ => absurd h1 (not_lt.mpr hle)⟩
      · show (400 : ℚ) * h = w * (h * (400 / w))
        field_simp
        ring
      · show h * (400 / w) ≤ h
        calc h * (400 / w) ≤ h * 1 :=
              mul_le_mul_of_nonneg_left
                ((div_le_one hw).mpr (le_of_lt h2)) (le_of_lt hh)
          _ = h := mul_one h
      · intro hmax
        exact absurd (le_trans (le_max_left w h) hmax) (not_le.mpr h2)
    · -- w > h and w ≤ 400 : unchanged
      rw [resizeDims_wide_small w h h1 h2]
      exact ⟨max_le h2 (le_trans (le_of_lt h1) h2), by ring, le_refl w,
        le_refl h, fun _ => rfl, fun _ hc => absurd hc (not_lt.mpr h2),
        fun hle _ => absurd h1 (not_lt.mpr hle)⟩
  · rcases lt_or_le (400 : ℚ) h with h2 | h2
    · -- w ≤ h and h > 400 : result (w * (400 / h), 400)
      rw [resizeDims_tall w h h1 h2]
      have e : h * (400 / h) = 400 := by field_simp
      have hscaled : w * (400 / h) ≤ 400 := by
        calc w * (400 / h) ≤ h * (400 / h) :=
              mul_le_mul_of_nonneg_right h1 (by positivity)
          _ = 400 := e
      refine ⟨max_le hscaled (le_refl 400), ?_, ?_, le_of_lt h2, ?_,
        fun hc _ => absurd hc (not_lt.mpr h1), fun _ _ => rfl⟩
      · show w * (400 / h) * h = w * 400
        field_simp
      · show w * (400 / h) ≤ w
        calc w * (400 / h) ≤ w * 1 :=
              mul_le_mul_of_nonneg_left
                ((div_le_one hh).mpr (le_of_lt h2)) (le_of_lt hw)
          _ = w := mul_one w
      · intro hmax
        exact absurd (le_trans (le_max_right w h) hmax) (not_le.mpr h2)
    · -- w ≤ h and h ≤ 400 : unchanged
      rw [resizeDims_tall_small w h h1 h2]
      exact ⟨max_le (le_trans h1 h2) h2, by ring, le_refl w, le_refl h,
        fun _ => rfl, fun hc _ => absurd hc (not_lt.mpr h1),
        fun _ hc => absurd hc (not_lt.mpr h2)⟩

/-- Witness for C9 at an 800×600 source (resized to 400×300) applied
through the theorem. -/
theorem thumbnail_bounded_box_witness :
    max (resizeDims 800 600).1 (resizeDims 800 600).2 ≤ 400 ∧
    (resizeDims 800 600).1 * 600 = 800 * (resizeDims 800 600).2 ∧
    (resizeDims 800 600).1 ≤ 800 ∧ (resizeDims 800 600).2 ≤ 600 ∧
    (max (800 : ℚ) 600 ≤ 400 → resizeDims 800 600 = (800, 600)) ∧
    ((600 : ℚ) < 800 → (400 : ℚ) < 800 → (resizeDims 800 600).1 = 400) ∧
    ((800 : ℚ) ≤ 600 → (400 : ℚ) < 600 → (resizeDims 800 600).2 = 400) :=
  thumbnail_bounded_box 800 600 (by norm_num) (by norm_num)

/-- C2: Export partial-failure tolerance.  (1) An asset without a
`newName` only bumps the error counter — no destination entry is touched
and no I/O happens for it; (2) the loop is plain structural recursion:
after any one asset (failed or not) it continues with the rest, so a
single item never aborts the batch; (3) an exception at any per-item
I/O step (`some k` outcome) is counted as exactly one failure and never
as a success; (4) concretely, for 5 assets where only asset #3 lacks a
`newName` and all I/O succeeds, the run reports 4 successes, 1 failure,
and exactly 4 destination entries. -/
theorem export_partial_failure :
    (∀ (outSet : Bool) (oc : ItemOutcome) (img : ImageWithMetadata)
       (st : ExportState), img.newName = none →
      processOne outSet oc img st =
        { st with errorCount := st.errorCount + 1 }) ∧
    (∀ (outSetDuring : Nat → Bool) (outcomes : Nat → ItemOutcome) (i : Nat)
       (img : ImageWithMetadata) (rest : List ImageWithMetadata)
       (st : ExportState),
      exportLoop outSetDuring outcomes i (img :: rest) st =
        exportLoop outSetDuring outcomes (i + 1) rest
          (processOne (outSetDuring i) (outcomes i) img st)) ∧
    (∀ (k : Nat) (nm : String) (img : ImageWithMetadata) (st : ExportState),
      img.newName = some nm → nm ≠ "" →
      (processOne true (some k) img st).errorCount = st.errorCount + 1 ∧
      (processOne true (some k) img st).successCount = st.successCount) ∧
    renameImages true sampleCsv sampleImages "c" true true
        (fun _ => true) (fun _ => none) =
      .done ⟨4, 1, ["a.jpg", "b.jpg", "d.jpg", "e.jpg"], "5.jpg"⟩
        "Copied and renamed 4 images. 1 errors." := by
  refine ⟨fun outSet oc img st h => ?_, fun _ _ _ _ _ _ => rfl,
    fun k nm img st h hnm => ?_, by decide⟩
  · simp [processOne, h]
  · cases k <;> simp [processOne, h, hnm]

/-- Witness for C2's hypothesis-bearing parts at concrete inputs:
a `newName`-less asset is counted as failed with state otherwise
untouched, and a throwing asset (step 2) is one failure, no success. -/
theorem export_partial_failure_witness :
    processOne true none (sampleImage "3.jpg" none) {} =
      { ({} : ExportState) with
        errorCount := ({} : ExportState).errorCount + 1 } ∧
    (processOne true (some 2) (sampleImage "1.jpg" (some "a.jpg"))
        {}).errorCount = ({} : ExportState).errorCount + 1 ∧
    (processOne true (some 2) (sampleImage "1.jpg" (some "a.jpg"))
        {}).successCount = ({} : ExportState).successCount :=
  ⟨export_partial_failure.1 true none (sampleImage "3.jpg" none) {} rfl,
   (export_partial_failure.2.2.1 2 "a.jpg" (sampleImage "1.jpg" (some "a.jpg"))
      {} rfl (by decide)).1,
   (export_partial_failure.2.2.1 2 "a.jpg" (sampleImage "1.jpg" (some "a.jpg"))
      {} rfl (by decide)).2⟩

/-- C4: Export precondition fail-fast.  If the source folder handle is
absent, the dataset empty, the asset list empty, or no column selected,
`renameImages` raises the descriptive error before any I/O: the result
is the error alone — no `ExportOutcome`, no counter change, and no
destination entry. -/
theorem export_precondition_failfast
    (dirSet : Bool) (csvData : List Row) (images : List ImageWithMetadata)
    (selectedColumn : String) (outSet0 selectOutputOk : Bool)
    (outSetDuring : Nat → Bool) (outcomes : Nat → ItemOutcome)
    (h : dirSet = false ∨ csvData = [] ∨ images = [] ∨ selectedColumn = "") :
    renameImages dirSet csvData images selectedColumn outSet0 selectOutputOk
        outSetDuring outcomes =
      .preconditionError "Please select both folder and CSV first" := by
  rcases h with h | h | h | h <;> subst h <;> simp [renameImages]

/-- Witness for C4: export invoked with no source folder handle. -/
theorem export_precondition_failfast_witness :
    renameImages false sampleCsv sampleImages "c" true true
        (fun _ => true) (fun _ => none) =
      .preconditionError "Please select both folder and CSV first" :=
  export_precondition_failfast false sampleCsv sampleImages "c" true true
    (fun _ => true) (fun _ => none) (Or.inl rfl)

lemma processOne_counts (oc : ItemOutcome) (img : ImageWithMetadata)
    (st : ExportState) :
    (processOne true oc img st).successCount +
        (processOne true oc img st).errorCount =
      st.successCount + st.errorCount + 1 := by
  cases h : img.newName with
  | none => simp [processOne, h]; omega
  | some nm =>
    by_cases hnm : nm = ""
    · simp [processOne, h, hnm]; omega
    · cases oc with
      | none => simp [processOne, h, hnm]; omega
      | some k => cases k <;> simp [processOne, h, hnm] <;> omega

lemma exportLoop_counts (outcomes : Nat → ItemOutcome)
    (imgs : List ImageWithMetadata) :
    ∀ (i : Nat) (st : ExportState),
      (exportLoop (fun _ => true) outcomes i imgs st).successCount +
          (exportLoop (fun _ => true) outcomes i imgs st).errorCount =
        st.successCount + st.errorCount + imgs.length := by
  induction imgs with
  | nil => intro i st; simp [exportLoop]
  | cons img rest ih =>
    intro i st
    rw [exportLoop, ih (i + 1), processOne_counts]
    simp
    omega

/-- C10: Export counter completeness.  When the preconditions hold, an
output folder is available, and the output handle stays set for the
whole run, `renameImages` finishes with every asset counted in exactly
one of the two counters — `successCount + errorCount = images.length` —
and the reported status carries exactly those two counts. -/
theorem export_counter_completeness
    (dirSet : Bool) (csvData : List Row) (images : List ImageWithMetadata)
    (selectedColumn : String) (outSet0 selectOutputOk : Bool)
    (outSetDuring : Nat → Bool) (outcomes : Nat → ItemOutcome)
    (hdir : dirSet = true) (hcsv : csvData ≠ []) (himgs : images ≠ [])
    (hcol : selectedColumn ≠ "")
    (hout : outSet0 = true ∨ selectOutputOk = true)
    (hset : ∀ i, outSetDuring i = true) :
    ∃ st : ExportState,
      renameImages dirSet csvData images selectedColumn outSet0
          selectOutputOk outSetDuring outcomes =
        .done st ("Copied and renamed " ++ toString st.successCount ++
          " images. " ++ toString st.errorCount ++ " errors.") ∧
      st.successCount + st.errorCount = images.length := by
  have hfun : outSetDuring = fun _ => true := funext hset
  subst hdir hfun
  refine ⟨exportLoop (fun _ => true) outcomes 0 images {}, ?_, ?_⟩
  · unfold renameImages
    rw [if_neg ?pre, if_neg ?sel]
    case pre =>
      simp [hcsv, himgs, hcol]
    case sel =>
      rcases hout with h | h <;> simp [h]
    rfl
  · rw [exportLoop_counts]
    simp

/-- Witness for C10: the five-asset sample with one I/O failure at
iteration 0; 3 successes and 2 failures still sum to 5. -/
theorem export_counter_completeness_witness :
    ∃ st : ExportState,
      renameImages true sampleCsv sampleImages "c" true true
          (fun _ => true) (fun i => if i = 0 then some 2 else none) =
        .done st ("Copied and renamed " ++ toString st.successCount ++
          " images. " ++ toString st.errorCount ++ " errors.") ∧
      st.successCount + st.errorCount = sampleImages.length :=
  export_counter_completeness true sampleCsv sampleImages "c" true true
    (fun _ => true) (fun i => if i = 0 then some 2 else none)
    rfl (by decide) (by decide) (by decide) (Or.inl rfl) (fun _ => rfl)

lemma byDateTime_trans : ∀ a b c : ImageWithMetadata,
    byDateTime a b → byDateTime b c → byDateTime a c := by
  intro a b c hab hbc
  simp only [byDateTime, decide_eq_true_eq] at *
  omega

lemma byDateTime_total : ∀ a b : ImageWithMetadata,
    byDateTime a b || byDateTime b a := by
  intro a b
  simp only [byDateTime, Bool.or_eq_true, decide_eq_true_eq]
  omega

/-- C5: Ingestion ordering.  After `selectFolder`'s ingestion, the asset
sequence is sorted non-decreasing by `dateTime`, and assets with equal
`dateTime` appear in the same relative order as they were enumerated
(stability): for every timestamp `t`, the sorted sequence restricted to
`dateTime = t` is exactly the enumeration restricted to `dateTime = t`. -/
theorem ingestion_sorted_stable (entries : List DirEntry) :
    List.Pairwise (fun a b : ImageWithMetadata => a.dateTime ≤ b.dateTime)
      (selectFolderImages entries) ∧
    ∀ t : Int,
      (selectFolderImages entries).filter (fun img => img.dateTime = t) =
        (enumerateImages entries).filter (fun img => img.dateTime = t) := by
  constructor
  · have hs := List.sorted_mergeSort byDateTime_trans byDateTime_total
      (enumerateImages entries)
    exact hs.imp (by intro a b hab; simpa [byDateTime] using hab)
  · intro t
    have hpw : ((enumerateImages entries).filter
        (fun img => img.dateTime = t)).Pairwise
          (fun a b => byDateTime a b = true) := by
      apply List.pairwise_of_forall_mem_list
      intro a ha b hb
      have ha' : a.dateTime = t := of_decide_eq_true (List.mem_filter.mp ha).2
      have hb' : b.dateTime = t := of_decide_eq_true (List.mem_filter.mp hb).2
      simp [byDateTime, ha', hb']
    have hsub : List.Sublist
        ((enumerateImages entries).filter (fun img => img.dateTime = t))
        ((enumerateImages entries).mergeSort byDateTime) :=
      List.sublist_mergeSort byDateTime_trans byDateTime_total hpw
        (List.filter_sublist _)
    have hsub2 := hsub.filter (fun img => decide (img.dateTime = t))
    rw [List.filter_eq_self.mpr
      (fun a ha => (List.mem_filter.mp ha).2)] at hsub2
    have hperm : List.Perm
        (((enumerateImages entries).mergeSort byDateTime).filter
          (fun img => decide (img.dateTime = t)))
        ((enumerateImages entries).filter
          (fun img => decide (img.dateTime = t))) :=
      (List.mergeSort_perm (enumerateImages entries) byDateTime).filter _
    exact (hsub2.eq_of_length hperm.length_eq.symm).symm

end ImageProcessor
